import Mathlib

/-!
Verification development for yubistack/utils.py (YK-VAL helper utilities).

The Python module is shallowly embedded below. Bytes are modelled as Nat
(always kept below 256 by construction), 16/32-bit machine words as Nat with
explicit masking where overflow matters, Python strings as Lean String
(reasoned about through their character list), Python dicts as insertion
ordered association lists with in-place value update, fallible operations as
Option, and functions returning either a dict or the Python constant False as
a dedicated result type.
-/

set_option maxRecDepth 20000

namespace Yubistack

/-! ## ModhexCodec: MODHEX_MAP and modhex2hex -/

/-- Translation table built by str.maketrans from the source, listed as
character pairs in the source order: 'cbdefghijklnrtuv' onto '0123456789abcdef'. -/
def MODHEX_MAP : List (Char × Char) :=
  [('c', '0'), ('b', '1'), ('d', '2'), ('e', '3'), ('f', '4'), ('g', '5'),
   ('h', '6'), ('i', '7'), ('j', '8'), ('k', '9'), ('l', 'a'), ('n', 'b'),
   ('r', 'c'), ('t', 'd'), ('u', 'e'), ('v', 'f')]

/-- Semantics of Python str.translate with a maketrans table: a character that
is a key of the table is replaced by its image, every other character is left
unchanged (str.translate never fails on unmapped characters). -/
def translateChar (c : Char) : Char := (MODHEX_MAP.lookup c).getD c

/-- Embedding of modhex2hex: character-for-character translation of the whole
string through MODHEX_MAP. -/
def modhex2hex (s : String) : String := ⟨s.data.map translateChar⟩

/-- The 16-symbol modhex alphabet, in table order. -/
def modhexAlphabet : List Char := "cbdefghijklnrtuv".data

/-! ## Hex transcoding: binascii.unhexlify / hexlify as used by the source -/

/-- Value of one hexadecimal digit character, in either case; none for a
character that is not a hex digit. -/
def hexVal (c : Char) : Option Nat :=
  if '0' ≤ c ∧ c ≤ '9' then some (c.toNat - '0'.toNat)
  else if 'a' ≤ c ∧ c ≤ 'f' then some (c.toNat - 'a'.toNat + 10)
  else if 'A' ≤ c ∧ c ≤ 'F' then some (c.toNat - 'A'.toNat + 10)
  else none

/-- Pairs of hex digit characters to bytes; none on an odd-length input or a
non-hex character (binascii.unhexlify raises there). -/
def unhexBytes : List Char → Option (List Nat)
  | [] => some []
  | c1 :: c2 :: rest => do
    let hi ← hexVal c1
    let lo ← hexVal c2
    let tail ← unhexBytes rest
    pure ((16 * hi + lo) :: tail)
  | [_] => none

/-- Embedding of binascii.unhexlify on a hex string. -/
def unhexlify (s : String) : Option (List Nat) := unhexBytes s.data

/-- Lowercase hex digit of a value below 16. -/
def hexDigitChar (n : Nat) : Char := "0123456789abcdef".data.getD n '0'

/-- Embedding of binascii.hexlify: two lowercase hex digits per byte. -/
def hexlify (bs : List Nat) : String :=
  ⟨bs.foldr (fun b acc => hexDigitChar (b / 16 % 16) :: hexDigitChar (b % 16) :: acc) []⟩

/-! ## CrcValidator: calculate_crc and check_crc -/

/-- One iteration of the inner loop of calculate_crc: record the least
significant bit, shift right by one, and conditionally fold in 0x8408. -/
def crcStep (crc : Nat) : Nat :=
  let last_bit_true := crc &&& 0x1
  let crc1 := crc >>> 1
  if last_bit_true = 1 then crc1 ^^^ 0x8408 else crc1

/-- The per-byte body of calculate_crc's outer loop: xor the byte into the
accumulator, then run the shift step eight times. -/
def crcByte (crc b : Nat) : Nat :=
  (List.range 8).foldl (fun c _ => crcStep c) (crc ^^^ b)

/-- Core of calculate_crc on the unhexlified bytes: exactly indices 0 to 15
are processed, mirroring the Python loop for i in range(16). -/
def crc16Bytes (token : List Nat) : Nat :=
  (List.range 16).foldl (fun crc i => crcByte crc (token.getD i 0)) 0xffff

/-- Embedding of calculate_crc: unhexlify the token string, then run the CRC
loop; none models the exception raised on malformed hex. -/
def calculate_crc (token : String) : Option Nat := (unhexlify token).map crc16Bytes

/-- Embedding of check_crc: the computed residue compared against 0xf0b8. -/
def check_crc (token : String) : Option Bool :=
  (calculate_crc token).map (fun crc => crc == 0xf0b8)

/-- CrcValidator computeResidue as the specification words it: initialize the
accumulator to 0xFFFF; for each byte of the block in order, xor the byte into
the low bits, then eight times: if the least significant bit is one, shift
right by one and xor with 0x8408, otherwise just shift right by one. -/
def computeResidue (block : List Nat) : Nat :=
  block.foldl
    (fun crc b =>
      (List.range 8).foldl
        (fun c _ => if c &&& 1 = 1 then (c >>> 1) ^^^ 0x8408 else c >>> 1)
        (crc ^^^ b))
    0xffff

/-! ## ReplayStateComparator: counters_eq, counters_gt, counters_gte -/

/-- The two counter fields the comparison functions read from their parameter
dicts; Python integers are modelled as Int. -/
structure CounterParams where
  yk_counter : Int
  yk_use : Int
deriving DecidableEq

/-- Embedding of counters_eq. -/
def counters_eq (params1 params2 : CounterParams) : Bool :=
  params1.yk_counter == params2.yk_counter && params1.yk_use == params2.yk_use

/-- Embedding of counters_gt. -/
def counters_gt (params1 params2 : CounterParams) : Bool :=
  decide (params1.yk_counter > params2.yk_counter) ||
    (params1.yk_counter == params2.yk_counter &&
      decide (params1.yk_use > params2.yk_use))

/-- Embedding of counters_gte. -/
def counters_gte (params1 params2 : CounterParams) : Bool :=
  decide (params1.yk_counter > params2.yk_counter) ||
    (params1.yk_counter == params2.yk_counter &&
      decide (params1.yk_use ≥ params2.yk_use))

/-! ## SyncResponseParser: parse_sync_response -/

/-- Values held by the parsed sync dict: raw strings as received, or integers
after the numeric coercion step. -/
inductive SyncVal where
  | str (s : String)
  | num (n : Int)
deriving DecidableEq

/-- Split a character list at every CRLF separator, scanning left to right,
like Python str.split with separator "\r\n". -/
def splitCRLF : List Char → List (List Char)
  | [] => [[]]
  | '\r' :: '\n' :: rest => [] :: splitCRLF rest
  | c :: rest =>
    match splitCRLF rest with
    | [] => [[c]]
    | l :: ls => (c :: l) :: ls

/-- Python line.split('=', 1): the part before the first '=' and everything
after it. -/
def splitLineEq (line : List Char) : String × String :=
  (⟨line.takeWhile (fun c => c != '=')⟩,
   ⟨(line.dropWhile (fun c => c != '=')).drop 1⟩)

/-- The key/value pairs extracted from a sync response body: CRLF-separated
lines that contain '=', each split at its first '='. -/
def syncPairs (body : String) : List (String × String) :=
  (splitCRLF body.data).filterMap (fun line =>
    if line.contains '=' then some (splitLineEq line) else none)

/-- Python dict assignment d[k] = v on an insertion-ordered association list:
update the value in place if the key is present, else append. -/
def dictInsert {α : Type} (d : List (String × α)) (k : String) (v : α) :
    List (String × α) :=
  match d with
  | [] => [(k, v)]
  | (k', v') :: rest =>
    if k' == k then (k', v) :: rest else (k', v') :: dictInsert rest k v

/-- Python dict(pairs): sequential insertion, so the first occurrence fixes
the position and the last occurrence fixes the value. -/
def buildDict {α : Type} (ps : List (String × α)) : List (String × α) :=
  ps.foldl (fun d p => dictInsert d p.1 p.2) []

/-- Python dict lookup on the association list model: the value at the first
(and in a dict, only) occurrence of the key. -/
def lookupDict {α : Type} : List (String × α) → String → Option α
  | [], _ => none
  | p :: rest, k => if p.1 == k then some p.2 else lookupDict rest k

/-- ASCII decimal digit test. -/
def isDigitChar (c : Char) : Bool := decide ('0' ≤ c) && decide (c ≤ '9')

/-- ASCII letter test. -/
def isAlphaChar (c : Char) : Bool :=
  (decide ('a' ≤ c) && decide (c ≤ 'z')) || (decide ('A' ≤ c) && decide (c ≤ 'Z'))

/-- Truthiness of re.match against the pattern (-1|\d+): re.match anchors at
the start only, so it succeeds exactly when the value starts with "-1" or
starts with a digit. -/
def numPatternMatch (v : String) : Bool :=
  match v.data with
  | '-' :: '1' :: _ => true
  | c :: _ => isDigitChar c
  | [] => false

/-- The recognized field names, in the iteration order of the checks dict
literal in the source. -/
def checkNames : List String :=
  ["modified", "yk_publicname", "yk_counter", "yk_use", "yk_high", "yk_low", "nonce"]

/-- Truthiness of re.match for the per-field pattern of each recognized
field: a character-class-plus pattern anchored at the start succeeds exactly
when the first character is in the class; the numeric fields use (-1|\d+). -/
def checkMatch (name : String) (v : String) : Bool :=
  if name == "yk_publicname" then
    match v.data with
    | c :: _ => modhexAlphabet.contains c
    | [] => false
  else if name == "nonce" then
    match v.data with
    | c :: _ => isDigitChar c || isAlphaChar c
    | [] => false
  else numPatternMatch v

/-- Python str.isdigit restricted to ASCII input: nonempty and all digits. -/
def pyIsDigit (v : String) : Bool := !v.data.isEmpty && v.data.all isDigitChar

/-- Decimal value of a digit string. -/
def natOfDigits (cs : List Char) : Nat :=
  cs.foldl (fun n c => 10 * n + (c.toNat - '0'.toNat)) 0

/-- The numeric coercion step of the checks loop: int(v) when str.isdigit
holds, otherwise the string is kept as is. -/
def coerceValue (v : String) : SyncVal :=
  if pyIsDigit v then SyncVal.num (natOfDigits v.data) else SyncVal.str v

/-- One iteration of the checks loop of parse_sync_response: when the field is
present and its raw string value matches the pattern, it is coerced in place;
otherwise the dict is left unchanged (the source only logs in that case). -/
def applyCheck (ps : List (String × SyncVal)) (name : String) :
    List (String × SyncVal) :=
  match lookupDict ps name with
  | some (SyncVal.str v) =>
    if checkMatch name v then dictInsert ps name (coerceValue v) else ps
  | _ => ps

/-- The checks loop run over a list of field names. -/
def applyChecks (names : List String) (ps : List (String × SyncVal)) :
    List (String × SyncVal) :=
  names.foldl applyCheck ps

/-- The dict built from the raw key/value pairs of a sync response body,
before the checks loop runs. -/
def rawSyncDict (body : String) : List (String × SyncVal) :=
  buildDict ((syncPairs body).map (fun p => (p.1, SyncVal.str p.2)))

/-- Embedding of parse_sync_response: build the dict of raw string pairs, then
run the checks loop over the seven recognized field names. -/
def parse_sync_response (body : String) : List (String × SyncVal) :=
  applyChecks checkNames (rawSyncDict body)

/-! ## OtpDecryptionOrchestrator: decrypt_otp -/

/-- ASCII whitespace for Python str.split with no argument. -/
def isSpaceChar (c : Char) : Bool :=
  c == ' ' || c == '\t' || c == '\n' || c == '\r' || c == '\x0b' || c == '\x0c'

/-- Worker for whitespace splitting: accumulates the current token reversed. -/
def splitWSGo (acc : List Char) : List Char → List (List Char)
  | [] => if acc.isEmpty then [] else [acc.reverse]
  | c :: rest =>
    if isSpaceChar c then
      if acc.isEmpty then splitWSGo [] rest else acc.reverse :: splitWSGo [] rest
    else splitWSGo (c :: acc) rest

/-- Python str.split() with no argument: split on whitespace runs, returning
no empty tokens. -/
def splitWS (cs : List Char) : List (List Char) := splitWSGo [] cs

/-- Python str.split('=') with no maxsplit: split at every '='. -/
def splitOnEqAll : List Char → List (List Char)
  | [] => [[]]
  | '=' :: rest => [] :: splitOnEqAll rest
  | c :: rest =>
    match splitOnEqAll rest with
    | [] => [[c]]
    | l :: ls => (c :: l) :: ls

/-- Hex digits folded to a value; none on an empty digit list. -/
def hexDigitsVal (cs : List Char) : Option Nat :=
  if cs.isEmpty then none
  else
    cs.foldl
      (fun acc c => do
        let a ← acc
        let d ← hexVal c
        pure (16 * a + d))
      (some 0)

/-- Models Python int(v, 16): optional surrounding ASCII whitespace, optional
sign, optional 0x prefix, then at least one hex digit; none models the
ValueError raised otherwise. Digit-grouping underscores are not modelled. -/
def pyIntHex (v : String) : Option Int :=
  let trimmed := ((v.data.dropWhile isSpaceChar).reverse.dropWhile isSpaceChar).reverse
  let signed :=
    match trimmed with
    | '-' :: rest => (true, rest)
    | '+' :: rest => (false, rest)
    | other => (false, other)
  let digits :=
    match signed.2 with
    | '0' :: 'x' :: rest => rest
    | '0' :: 'X' :: rest => rest
    | other => other
  (hexDigitsVal digits).map (fun n => if signed.1 then -(n : Int) else (n : Int))

/-- Result of decrypt_otp: a parsed field dict, the Python constant False, or
a raised exception. -/
inductive DecryptOtpResult where
  | ok (fields : List (String × Int))
  | fls
  | err
deriving DecidableEq

/-- Parse space-separated key=value hex tokens: each token must split at '='
into exactly two parts and the value must parse in base 16, else the source
raises (modelled as none). -/
def parseHexPairs : List (List Char) → Option (List (String × Int))
  | [] => some []
  | tok :: rest =>
    match splitOnEqAll tok with
    | [k, v] => do
      let n ← pyIntHex (String.mk v)
      let tail ← parseHexPairs rest
      pure ((String.mk k, n) :: tail)
    | _ => none

/-- Test for a response body beginning with the literal "OK". -/
def startsWithOK (t : String) : Bool :=
  match t.data with
  | 'O' :: 'K' :: _ => true
  | _ => false

/-- Processing of a successful KSM response: drop the leading OK token, parse
the remaining hex pairs into a dict. -/
def ksmResponse (t : String) : DecryptOtpResult :=
  match parseHexPairs ((splitWS t.data).drop 1) with
  | some ps => DecryptOtpResult.ok (buildDict ps)
  | none => DecryptOtpResult.err

/-- The endpoint loop of decrypt_otp: issue the request for each url in order;
the first response starting with OK is parsed and returned, and falling off
the end of the loop reaches the final return False of the source. -/
def ksmLoop (otp : String) (http : String → String → String) :
    List String → DecryptOtpResult
  | [] => DecryptOtpResult.fls
  | url :: rest =>
    let t := http url otp
    if startsWithOK t then ksmResponse t else ksmLoop otp http rest

/-- Conversion applied on the local decryptor path: int(v, 16) on every value
of the returned mapping; none models the exception on unparsable hex. -/
def traverseHex : List (String × String) → Option (List (String × Int))
  | [] => some []
  | (k, v) :: rest => do
    let n ← pyIntHex v
    let tail ← traverseHex rest
    pure ((k, n) :: tail)

/-- A network in which every endpoint answers with a body that does not start
with OK, used to exercise the failure paths of decrypt_otp. -/
def constERRResponse : String → String → String := fun _ _ => "ERR"

/-- Embedding of decrypt_otp. The network is passed explicitly as a function
from url and otp to the response body text; a local decryptor, when present,
maps the otp to a dict of hex-string fields. An empty url list is falsy in
Python, so with no decryptor it reaches the same final return False as an
exhausted endpoint loop. -/
def decrypt_otp (otp : String) (urls : List String)
    (decryptor : Option (String → List (String × String)))
    (http : String → String → String) : DecryptOtpResult :=
  match decryptor with
  | some dec =>
    match traverseHex (dec otp) with
    | some ps => DecryptOtpResult.ok (buildDict ps)
    | none => DecryptOtpResult.err
  | none =>
    if urls.isEmpty then DecryptOtpResult.fls else ksmLoop otp http urls

/-! ## CipherDecryptor: aes128ecb_decrypt

The source delegates the block cipher to an external AES library; the cipher
itself is modelled from the AES-128 standard (FIPS-197 inverse cipher), on
byte lists with column-major state kept flat in block order. -/

/-- AES forward S-box (FIPS-197 figure 7). -/
def sboxTable : List Nat :=
 [0x63, 0x7c, 0x77, 0x7b, 0xf2, 0x6b, 0x6f, 0xc5, 0x30, 0x01, 0x67, 0x2b, 0xfe, 0xd7, 0xab, 0x76,
  0xca, 0x82, 0xc9, 0x7d, 0xfa, 0x59, 0x47, 0xf0, 0xad, 0xd4, 0xa2, 0xaf, 0x9c, 0xa4, 0x72, 0xc0,
  0xb7, 0xfd, 0x93, 0x26, 0x36, 0x3f, 0xf7, 0xcc, 0x34, 0xa5, 0xe5, 0xf1, 0x71, 0xd8, 0x31, 0x15,
  0x04, 0xc7, 0x23, 0xc3, 0x18, 0x96, 0x05, 0x9a, 0x07, 0x12, 0x80, 0xe2, 0xeb, 0x27, 0xb2, 0x75,
  0x09, 0x83, 0x2c, 0x1a, 0x1b, 0x6e, 0x5a, 0xa0, 0x52, 0x3b, 0xd6, 0xb3, 0x29, 0xe3, 0x2f, 0x84,
  0x53, 0xd1, 0x00, 0xed, 0x20, 0xfc, 0xb1, 0x5b, 0x6a, 0xcb, 0xbe, 0x39, 0x4a, 0x4c, 0x58, 0xcf,
  0xd0, 0xef, 0xaa, 0xfb, 0x43, 0x4d, 0x33, 0x85, 0x45, 0xf9, 0x02, 0x7f, 0x50, 0x3c, 0x9f, 0xa8,
  0x51, 0xa3, 0x40, 0x8f, 0x92, 0x9d, 0x38, 0xf5, 0xbc, 0xb6, 0xda, 0x21, 0x10, 0xff, 0xf3, 0xd2,
  0xcd, 0x0c, 0x13, 0xec, 0x5f, 0x97, 0x44, 0x17, 0xc4, 0xa7, 0x7e, 0x3d, 0x64, 0x5d, 0x19, 0x73,
  0x60, 0x81, 0x4f, 0xdc, 0x22, 0x2a, 0x90, 0x88, 0x46, 0xee, 0xb8, 0x14, 0xde, 0x5e, 0x0b, 0xdb,
  0xe0, 0x32, 0x3a, 0x0a, 0x49, 0x06, 0x24, 0x5c, 0xc2, 0xd3, 0xac, 0x62, 0x91, 0x95, 0xe4, 0x79,
  0xe7, 0xc8, 0x37, 0x6d, 0x8d, 0xd5, 0x4e, 0xa9, 0x6c, 0x56, 0xf4, 0xea, 0x65, 0x7a, 0xae, 0x08,
  0xba, 0x78, 0x25, 0x2e, 0x1c, 0xa6, 0xb4, 0xc6, 0xe8, 0xdd, 0x74, 0x1f, 0x4b, 0xbd, 0x8b, 0x8a,
  0x70, 0x3e, 0xb5, 0x66, 0x48, 0x03, 0xf6, 0x0e, 0x61, 0x35, 0x57, 0xb9, 0x86, 0xc1, 0x1d, 0x9e,
  0xe1, 0xf8, 0x98, 0x11, 0x69, 0xd9, 0x8e, 0x94, 0x9b, 0x1e, 0x87, 0xe9, 0xce, 0x55, 0x28, 0xdf,
  0x8c, 0xa1, 0x89, 0x0d, 0xbf, 0xe6, 0x42, 0x68, 0x41, 0x99, 0x2d, 0x0f, 0xb0, 0x54, 0xbb, 0x16]

/-- AES inverse S-box (FIPS-197 figure 14). -/
def invSboxTable : List Nat :=
 [0x52, 0x09, 0x6a, 0xd5, 0x30, 0x36, 0xa5, 0x38, 0xbf, 0x40, 0xa3, 0x9e, 0x81, 0xf3, 0xd7, 0xfb,
  0x7c, 0xe3, 0x39, 0x82, 0x9b, 0x2f, 0xff, 0x87, 0x34, 0x8e, 0x43, 0x44, 0xc4, 0xde, 0xe9, 0xcb,
  0x54, 0x7b, 0x94, 0x32, 0xa6, 0xc2, 0x23, 0x3d, 0xee, 0x4c, 0x95, 0x0b, 0x42, 0xfa, 0xc3, 0x4e,
  0x08, 0x2e, 0xa1, 0x66, 0x28, 0xd9, 0x24, 0xb2, 0x76, 0x5b, 0xa2, 0x49, 0x6d, 0x8b, 0xd1, 0x25,
  0x72, 0xf8, 0xf6, 0x64, 0x86, 0x68, 0x98, 0x16, 0xd4, 0xa4, 0x5c, 0xcc, 0x5d, 0x65, 0xb6, 0x92,
  0x6c, 0x70, 0x48, 0x50, 0xfd, 0xed, 0xb9, 0xda, 0x5e, 0x15, 0x46, 0x57, 0xa7, 0x8d, 0x9d, 0x84,
  0x90, 0xd8, 0xab, 0x00, 0x8c, 0xbc, 0xd3, 0x0a, 0xf7, 0xe4, 0x58, 0x05, 0xb8, 0xb3, 0x45, 0x06,
  0xd0, 0x2c, 0x1e, 0x8f, 0xca, 0x3f, 0x0f, 0x02, 0xc1, 0xaf, 0xbd, 0x03, 0x01, 0x13, 0x8a, 0x6b,
  0x3a, 0x91, 0x11, 0x41, 0x4f, 0x67, 0xdc, 0xea, 0x97, 0xf2, 0xcf, 0xce, 0xf0, 0xb4, 0xe6, 0x73,
  0x96, 0xac, 0x74, 0x22, 0xe7, 0xad, 0x35, 0x85, 0xe2, 0xf9, 0x37, 0xe8, 0x1c, 0x75, 0xdf, 0x6e,
  0x47, 0xf1, 0x1a, 0x71, 0x1d, 0x29, 0xc5, 0x89, 0x6f, 0xb7, 0x62, 0x0e, 0xaa, 0x18, 0xbe, 0x1b,
  0xfc, 0x56, 0x3e, 0x4b, 0xc6, 0xd2, 0x79, 0x20, 0x9a, 0xdb, 0xc0, 0xfe, 0x78, 0xcd, 0x5a, 0xf4,
  0x1f, 0xdd, 0xa8, 0x33, 0x88, 0x07, 0xc7, 0x31, 0xb1, 0x12, 0x10, 0x59, 0x27, 0x80, 0xec, 0x5f,
  0x60, 0x51, 0x7f, 0xa9, 0x19, 0xb5, 0x4a, 0x0d, 0x2d, 0xe5, 0x7a, 0x9f, 0x93, 0xc9, 0x9c, 0xef,
  0xa0, 0xe0, 0x3b, 0x4d, 0xae, 0x2a, 0xf5, 0xb0, 0xc8, 0xeb, 0xbb, 0x3c, 0x83, 0x53, 0x99, 0x61,
  0x17, 0x2b, 0x04, 0x7e, 0xba, 0x77, 0xd6, 0x26, 0xe1, 0x69, 0x14, 0x63, 0x55, 0x21, 0x0c, 0x7d]

/-- Forward S-box lookup. -/
def sb (n : Nat) : Nat := sboxTable.getD n 0

/-- Inverse S-box lookup. -/
def invSb (n : Nat) : Nat := invSboxTable.getD n 0

/-- Multiplication by x in GF(2^8) with the AES reduction polynomial. -/
def xtime (a : Nat) : Nat :=
  let b := a <<< 1
  if 256 ≤ b then (b ^^^ 0x11b) else b

/-- GF(2^8) multiplication by shift-and-add, eight bits of the second factor. -/
def gmulAux : Nat → Nat → Nat → Nat
  | 0, _, _ => 0
  | k + 1, a, b =>
    (if b &&& 1 = 1 then a else 0) ^^^ gmulAux k (xtime a) (b >>> 1)

/-- GF(2^8) multiplication. -/
def gmul (a b : Nat) : Nat := gmulAux 8 a b

/-- Round constant bytes of the AES key schedule. -/
def rconByte (j : Nat) : Nat :=
  [0x01, 0x02, 0x04, 0x08, 0x10, 0x20, 0x40, 0x80, 0x1b, 0x36].getD (j - 1) 0

/-- Bytewise xor of two equal-length byte lists. -/
def bytesXor (a b : List Nat) : List Nat := List.zipWith (fun x y => x ^^^ y) a b

/-- AES-128 key expansion: 44 four-byte words; words 4 to 43 are built from
the previous word (rotated, substituted and xored with the round constant at
multiples of four) xored with the word four positions back. -/
def keyExpansion (key : List Nat) : List (List Nat) :=
  let w0 := (List.range 4).map (fun i =>
    [key.getD (4 * i) 0, key.getD (4 * i + 1) 0,
     key.getD (4 * i + 2) 0, key.getD (4 * i + 3) 0])
  (List.range 40).foldl
    (fun ws k =>
      let i := k + 4
      let prev := ws.getD (i - 1) []
      let temp :=
        if i % 4 = 0 then
          match prev with
          | [a, b, c, d] => [sb b ^^^ rconByte (i / 4), sb c, sb d, sb a]
          | _ => prev
        else prev
      ws ++ [bytesXor (ws.getD (i - 4) []) temp])
    w0

/-- Flat 16-byte round key for a given round: the four schedule words joined,
so that the byte at state index i is word (i / 4) byte (i % 4). -/
def roundKey (w : List (List Nat)) (r : Nat) : List Nat :=
  ((List.range 4).map (fun c => w.getD (4 * r + c) [])).flatten

/-- InvShiftRows on the flat state: row r (indices congruent to r mod 4) is
rotated right by r columns. -/
def invShiftRows (s : List Nat) : List Nat :=
  (List.range 16).map (fun i =>
    s.getD (i % 4 + 4 * ((i / 4 + 4 - i % 4) % 4)) 0)

/-- InvSubBytes on the flat state. -/
def invSubBytes (s : List Nat) : List Nat := s.map invSb

/-- InvMixColumns on one four-byte column. -/
def invMixColumn (col : List Nat) : List Nat :=
  match col with
  | [a, b, c, d] =>
    [gmul 0x0e a ^^^ gmul 0x0b b ^^^ gmul 0x0d c ^^^ gmul 0x09 d,
     gmul 0x09 a ^^^ gmul 0x0e b ^^^ gmul 0x0b c ^^^ gmul 0x0d d,
     gmul 0x0d a ^^^ gmul 0x09 b ^^^ gmul 0x0e c ^^^ gmul 0x0b d,
     gmul 0x0b a ^^^ gmul 0x0d b ^^^ gmul 0x09 c ^^^ gmul 0x0e d]
  | _ => col

/-- InvMixColumns on the flat state, column by column. -/
def invMixColumns (s : List Nat) : List Nat :=
  ((List.range 4).map (fun c => invMixColumn ((s.drop (4 * c)).take 4))).flatten

/-- FIPS-197 InvCipher for AES-128 on one 16-byte block: AddRoundKey with the
last round key, nine rounds of InvShiftRows, InvSubBytes, AddRoundKey and
InvMixColumns from round 9 down to 1, then a final InvShiftRows, InvSubBytes
and AddRoundKey with round key 0. -/
def aesDecryptBlock (key block : List Nat) : List Nat :=
  let w := keyExpansion key
  let st0 := bytesXor block (roundKey w 10)
  let st9 :=
    (List.range 9).foldl
      (fun st k =>
        let r := 9 - k
        invMixColumns (bytesXor (invSubBytes (invShiftRows st)) (roundKey w r)))
      st0
  bytesXor (invSubBytes (invShiftRows st9)) (roundKey w 0)

/-- ECB-mode decryption over consecutive 16-byte chunks of the input. -/
def ecbDecrypt (key cb : List Nat) : List Nat :=
  ((List.range (cb.length / 16)).map
    (fun i => aesDecryptBlock key ((cb.drop (16 * i)).take 16))).flatten

/-- Embedding of aes128ecb_decrypt: unhexlify the key, translate the cipher
text through modhex2hex, unhexlify it, decrypt under AES in ECB mode, and
hexlify the plaintext. The all-zero IV built by the source has no effect in
ECB mode. The external library raises (modelled as none) when the key is not
16 bytes or the ciphertext is not a whole number of 16-byte blocks. -/
def aes128ecb_decrypt (key cipher : String) : Option String := do
  let kb ← unhexlify key
  let cb ← unhexlify (modhex2hex cipher)
  if kb.length = 16 ∧ cb.length % 16 = 0 then
    pure (hexlify (ecbDecrypt kb cb))
  else none

/-- CipherDecryptor.decrypt as section 4.2 of the specification words it:
decode the key from hex to raw bytes, which must be exactly 16 bytes; run the
cipher text through ModhexCodec then hex-decode it to raw bytes, each block of
16 bytes decrypted with AES in Electronic Codebook mode; re-encode the result
as a lowercase hex string. -/
def cipherDecryptorSpec (keyHex cipherModhex : String) : Option String := do
  let kb ← unhexlify keyHex
  let cb ← unhexlify (modhex2hex cipherModhex)
  if kb.length = 16 ∧ cb.length % 16 = 0 then
    pure (hexlify (ecbDecrypt kb cb))
  else none

/-! ## MessageAuthenticator: sign

The source delegates hashing to hashlib/hmac and encoding to base64; those
external primitives are modelled from their standards (FIPS-180 SHA-1,
RFC 2104 HMAC, RFC 4648 base64) on byte lists, with 32-bit words as Nat
reduced modulo 2^32. -/

/-- Word mask for 32-bit arithmetic. -/
def mask32 : Nat := 4294967295

/-- Left rotation of a 32-bit word. -/
def rotl32 (k n : Nat) : Nat := ((n <<< k) ||| (n >>> (32 - k))) &&& mask32

/-- Big-endian bytes of a 32-bit word. -/
def word32Bytes (n : Nat) : List Nat :=
  [(n >>> 24) &&& 0xff, (n >>> 16) &&& 0xff, (n >>> 8) &&& 0xff, n &&& 0xff]

/-- Big-endian bytes of a 64-bit length field. -/
def word64Bytes (n : Nat) : List Nat :=
  [(n >>> 56) &&& 0xff, (n >>> 48) &&& 0xff, (n >>> 40) &&& 0xff, (n >>> 32) &&& 0xff,
   (n >>> 24) &&& 0xff, (n >>> 16) &&& 0xff, (n >>> 8) &&& 0xff, n &&& 0xff]

/-- SHA-1 message padding: a 0x80 byte, zeros to 56 mod 64, then the bit
length as a 64-bit big-endian integer. -/
def sha1Pad (msg : List Nat) : List Nat :=
  let zeros := (56 + 64 - (msg.length + 1) % 64) % 64
  msg ++ [0x80] ++ List.replicate zeros 0 ++ word64Bytes (8 * msg.length)

/-- The sixteen initial 32-bit message schedule words of one 64-byte chunk. -/
def chunkWords (chunk : List Nat) : List Nat :=
  (List.range 16).map (fun j =>
    (chunk.getD (4 * j) 0 <<< 24) ||| (chunk.getD (4 * j + 1) 0 <<< 16) |||
      (chunk.getD (4 * j + 2) 0 <<< 8) ||| chunk.getD (4 * j + 3) 0)

/-- Message schedule extension to eighty words. -/
def sha1Extend (ws : List Nat) : List Nat :=
  (List.range 64).foldl
    (fun ws _ =>
      let n := ws.length
      ws ++ [rotl32 1 (ws.getD (n - 3) 0 ^^^ ws.getD (n - 8) 0 ^^^
                       ws.getD (n - 14) 0 ^^^ ws.getD (n - 16) 0)])
    ws

/-- Round function of SHA-1. -/
def sha1F (i b c d : Nat) : Nat :=
  if i < 20 then (b &&& c) ||| ((b ^^^ mask32) &&& d)
  else if i < 40 then b ^^^ c ^^^ d
  else if i < 60 then (b &&& c) ||| (b &&& d) ||| (c &&& d)
  else b ^^^ c ^^^ d

/-- Round constant of SHA-1. -/
def sha1K (i : Nat) : Nat :=
  if i < 20 then 0x5a827999
  else if i < 40 then 0x6ed9eba1
  else if i < 60 then 0x8f1bbcdc
  else 0xca62c1d6

/-- Compression of one 64-byte chunk into the running five-word state. -/
def sha1Compress (h : List Nat) (chunk : List Nat) : List Nat :=
  let ws := sha1Extend (chunkWords chunk)
  let final :=
    ws.enum.foldl
      (fun st iw =>
        match st with
        | [a, b, c, d, e] =>
          let t := (rotl32 5 a + sha1F iw.1 b c d + e + sha1K iw.1 + iw.2) &&& mask32
          [t, a, rotl32 30 b, c, d]
        | st => st)
      h
  List.zipWith (fun x y => (x + y) &&& mask32) h final

/-- SHA-1 of a byte list: pad, then compress the 64-byte chunks in order and
serialize the five state words big-endian. -/
def sha1 (msg : List Nat) : List Nat :=
  let padded := sha1Pad msg
  let final :=
    (List.range (padded.length / 64)).foldl
      (fun h i => sha1Compress h ((padded.drop (64 * i)).take 64))
      [0x67452301, 0xefcdab89, 0x98badcfe, 0x10325476, 0xc3d2e1f0]
  (final.map word32Bytes).flatten

/-- RFC 2104 HMAC with SHA-1: keys longer than the 64-byte block are hashed
first, the key is zero-padded to 64 bytes, and the digest is the outer hash
of the opad block and the inner hash. -/
def hmac_sha1 (key msg : List Nat) : List Nat :=
  let k0 := if 64 < key.length then sha1 key else key
  let k1 := k0 ++ List.replicate (64 - k0.length) 0
  sha1 ((k1.map (fun b => b ^^^ 0x5c)) ++
    sha1 ((k1.map (fun b => b ^^^ 0x36)) ++ msg))

/-- Standard base64 alphabet (RFC 4648). -/
def b64Alphabet : List Char :=
  "ABCDEFGHIJKLMNOPQRSTUVWXYZabcdefghijklmnopqrstuvwxyz0123456789+/".data

/-- Alphabet lookup for a 6-bit group. -/
def b64Char (n : Nat) : Char := b64Alphabet.getD n 'A'

/-- Base64 groups of three bytes into four characters, with '=' padding on a
final partial group. -/
def b64Groups : List Nat → List Char
  | [] => []
  | [a] => [b64Char (a >>> 2), b64Char ((a &&& 3) <<< 4), '=', '=']
  | [a, b] =>
    [b64Char (a >>> 2), b64Char (((a &&& 3) <<< 4) ||| (b >>> 4)),
     b64Char ((b &&& 15) <<< 2), '=']
  | a :: b :: c :: rest =>
    b64Char (a >>> 2) :: b64Char (((a &&& 3) <<< 4) ||| (b >>> 4)) ::
      b64Char (((b &&& 15) <<< 2) ||| (c >>> 6)) :: b64Char (c &&& 63) :: b64Groups rest

/-- Embedding of base64.b64encode (standard alphabet, with padding), decoded
back to a string as the source does. -/
def b64encode (bs : List Nat) : String := ⟨b64Groups bs⟩

/-- UTF-8 bytes of one character, as Python str.encode produces them. -/
def utf8EncodeChar (c : Char) : List Nat :=
  let n := c.toNat
  if n < 0x80 then [n]
  else if n < 0x800 then [0xc0 ||| (n >>> 6), 0x80 ||| (n &&& 0x3f)]
  else if n < 0x10000 then
    [0xe0 ||| (n >>> 12), 0x80 ||| ((n >>> 6) &&& 0x3f), 0x80 ||| (n &&& 0x3f)]
  else
    [0xf0 ||| (n >>> 18), 0x80 ||| ((n >>> 12) &&& 0x3f),
     0x80 ||| ((n >>> 6) &&& 0x3f), 0x80 ||| (n &&& 0x3f)]

/-- Python str.encode(): UTF-8 bytes of the whole string. -/
def strBytes (s : String) : List Nat := (s.data.map utf8EncodeChar).flatten

/-- Python string comparison on character lists: lexicographic by code point. -/
def charListLe : List Char → List Char → Bool
  | [], _ => true
  | _ :: _, [] => false
  | a :: as, b :: bs =>
    if a.toNat < b.toNat then true
    else if b.toNat < a.toNat then false
    else charListLe as bs

/-- Insertion of a string into a list sorted by the Python string order. -/
def insertSorted (x : String) : List String → List String
  | [] => [x]
  | y :: ys => if charListLe x.data y.data then x :: y :: ys else y :: insertSorted x ys

/-- Python sorted() on a list of strings, as insertion sort over the total
code-point order. -/
def sortedStrings (l : List String) : List String := l.foldr insertSorted []

/-- Python '&'.join. -/
def joinAmp : List String → String
  | [] => ""
  | [s] => s
  | s :: rest => s ++ "&" ++ joinAmp rest

/-- The query string built by sign: field names sorted, each rendered as
key=value and joined with '&'. Values are taken as already-rendered strings
(the %s formatting of the source). The field mapping is an association list
standing for the Python dict, looked up per sorted key exactly as the source
subscripts data[k]. -/
def signQueryString (data : List (String × String)) : String :=
  joinAmp ((sortedStrings (data.map (fun p => p.1))).map
    (fun k => k ++ "=" ++ (lookupDict data k).getD ""))

/-- Embedding of sign: base64 of the HMAC-SHA-1 of the UTF-8 bytes of the
query string, keyed by the raw API key bytes. -/
def sign (data : List (String × String)) (apikey : List Nat) : String :=
  b64encode (hmac_sha1 apikey (strBytes (signQueryString data)))

/-- MessageAuthenticator canonicalize as section 4.6 of the specification
words it: sort field names by ascending byte-wise comparison, join key=value
pairs with '&', no escaping and no added whitespace. -/
def canonicalizeSpec (fields : List (String × String)) : String :=
  joinAmp ((sortedStrings (fields.map (fun p => p.1))).map
    (fun k => k ++ "=" ++ (lookupDict fields k).getD ""))

/-! ## General lemmas about the embedded operations -/

theorem strAppend_cancel_left {s t1 t2 : String} (h : s ++ t1 = s ++ t2) : t1 = t2 := by
  have hd := congrArg String.data h
  simp only [String.data_append] at hd
  exact String.ext (List.append_cancel_left hd)

theorem strAppend_cancel_right {t1 t2 s : String} (h : t1 ++ s = t2 ++ s) : t1 = t2 := by
  have hd := congrArg String.data h
  simp only [String.data_append] at hd
  exact String.ext (List.append_cancel_right hd)

theorem joinAmp_cons (s : String) (r : List String) (h : r ≠ []) :
    joinAmp (s :: r) = s ++ "&" ++ joinAmp r := by
  cases r with
  | nil => exact absurd rfl h
  | cons a l => rfl

theorem joinAmp_single_value_ne :
    ∀ (A : List String) (key v1 v2 : String) (B : List String), v1 ≠ v2 →
      joinAmp (A ++ (key ++ "=" ++ v1) :: B) ≠ joinAmp (A ++ (key ++ "=" ++ v2) :: B) := by
  intro A
  induction A with
  | nil =>
    intro key v1 v2 B hv h
    cases B with
    | nil => exact hv (strAppend_cancel_left h)
    | cons b B' =>
      rw [List.nil_append, List.nil_append,
        joinAmp_cons _ _ (List.cons_ne_nil b B'),
        joinAmp_cons _ _ (List.cons_ne_nil b B')] at h
      exact hv (strAppend_cancel_left
        (strAppend_cancel_right (strAppend_cancel_right h)))
  | cons a A' ih =>
    intro key v1 v2 B hv h
    rw [List.cons_append, List.cons_append,
      joinAmp_cons _ _ (List.append_ne_nil_of_right_ne_nil A' (List.cons_ne_nil _ B)),
      joinAmp_cons _ _ (List.append_ne_nil_of_right_ne_nil A' (List.cons_ne_nil _ B))] at h
    exact ih key v1 v2 B hv (strAppend_cancel_left h)

theorem insertSorted_perm (x : String) (l : List String) :
    (insertSorted x l).Perm (x :: l) := by
  induction l with
  | nil => exact List.Perm.refl _
  | cons y ys ih =>
    simp only [insertSorted]
    split
    · exact List.Perm.refl _
    · exact (ih.cons y).trans (List.Perm.swap x y ys)

theorem sortedStrings_perm (l : List String) : (sortedStrings l).Perm l := by
  induction l with
  | nil => exact List.Perm.refl _
  | cons a l ih =>
    exact (insertSorted_perm a (sortedStrings l)).trans (ih.cons a)

theorem lookupDict_dictInsert {α : Type} (d : List (String × α)) (k : String) (v : α)
    (k' : String) :
    lookupDict (dictInsert d k v) k' = if k' = k then some v else lookupDict d k' := by
  induction d with
  | nil =>
    by_cases h : k' = k
    · subst h; simp [dictInsert, lookupDict]
    · simp [dictInsert, lookupDict, h, beq_eq_false_iff_ne.mpr (Ne.symm h)]
  | cons p rest ih =>
    by_cases hp : p.1 = k
    · by_cases h : k' = k
      · subst h
        simp [dictInsert, lookupDict, hp]
      · have hne : (p.1 == k') = false :=
          beq_eq_false_iff_ne.mpr (fun he => h (he.symm.trans hp))
        simp [dictInsert, lookupDict, hp, h, hne, Ne.symm h]
    · by_cases h : k' = k
      · subst h
        simp [dictInsert, lookupDict, beq_eq_false_iff_ne.mpr hp, ih]
      · simp [dictInsert, lookupDict, beq_eq_false_iff_ne.mpr hp, ih, h]

theorem lookupDict_isSome_of_mem_keys {α : Type} (d : List (String × α)) (k : String)
    (h : k ∈ d.map (fun p => p.1)) : ∃ v, lookupDict d k = some v := by
  induction d with
  | nil => simp at h
  | cons p rest ih =>
    by_cases hp : p.1 = k
    · exact ⟨p.2, by simp [lookupDict, hp]⟩
    · have hmem : k ∈ rest.map (fun p => p.1) := by
        simp only [List.map_cons, List.mem_cons] at h
        exact h.resolve_left (fun he => hp he.symm)
      obtain ⟨v, hv⟩ := ih hmem
      exact ⟨v, by simp [lookupDict, beq_eq_false_iff_ne.mpr hp, hv]⟩

theorem lookupDict_applyCheck_ne (ps : List (String × SyncVal)) (name other : String)
    (h : other ≠ name) :
    lookupDict (applyCheck ps name) other = lookupDict ps other := by
  cases hl : lookupDict ps name with
  | none => simp [applyCheck, hl]
  | some v =>
    cases v with
    | str s =>
      by_cases hm : checkMatch name s
      · simp [applyCheck, hl, hm, lookupDict_dictInsert, h]
      · simp [applyCheck, hl, hm]
    | num n => simp [applyCheck, hl]

theorem applyCheck_fail (ps : List (String × SyncVal)) (name v : String)
    (hl : lookupDict ps name = some (SyncVal.str v)) (hm : checkMatch name v = false) :
    applyCheck ps name = ps := by
  simp [applyCheck, hl, hm]

theorem lookupDict_applyCheck_success (ps : List (String × SyncVal)) (name v : String)
    (hl : lookupDict ps name = some (SyncVal.str v)) (hm : checkMatch name v = true) :
    lookupDict (applyCheck ps name) name = some (coerceValue v) := by
  simp [applyCheck, hl, hm, lookupDict_dictInsert]

theorem lookupDict_applyChecks_notMem (names : List String)
    (ps : List (String × SyncVal)) (other : String) (h : other ∉ names) :
    lookupDict (applyChecks names ps) other = lookupDict ps other := by
  induction names generalizing ps with
  | nil => rfl
  | cons n rest ih =>
    have hrest : other ∉ rest := fun hm => h (List.mem_cons_of_mem n hm)
    have hne : other ≠ n := fun he => h (he ▸ List.mem_cons_self n rest)
    calc lookupDict (applyChecks (n :: rest) ps) other
        = lookupDict (applyCheck ps n) other := ih (applyCheck ps n) hrest
      _ = lookupDict ps other := lookupDict_applyCheck_ne ps n other hne

theorem lookupDict_applyChecks_fail (names : List String)
    (ps : List (String × SyncVal)) (name v : String)
    (hl : lookupDict ps name = some (SyncVal.str v)) (hm : checkMatch name v = false) :
    lookupDict (applyChecks names ps) name = some (SyncVal.str v) := by
  induction names generalizing ps with
  | nil => exact hl
  | cons n rest ih =>
    by_cases hn : name = n
    · subst hn
      have hstep : applyChecks (name :: rest) ps = applyChecks rest ps := by
        show applyChecks rest (applyCheck ps name) = applyChecks rest ps
        rw [applyCheck_fail ps name v hl hm]
      rw [hstep]
      exact ih ps hl
    · have h1 : lookupDict (applyCheck ps n) name = some (SyncVal.str v) :=
        (lookupDict_applyCheck_ne ps n name hn).trans hl
      exact ih (applyCheck ps n) h1

theorem lookupDict_applyChecks_success (names : List String)
    (ps : List (String × SyncVal)) (name v : String)
    (hnd : names.Nodup) (hmem : name ∈ names)
    (hl : lookupDict ps name = some (SyncVal.str v)) (hm : checkMatch name v = true) :
    lookupDict (applyChecks names ps) name = some (coerceValue v) := by
  obtain ⟨N1, N2, rfl⟩ := List.append_of_mem hmem
  have hsplit : applyChecks (N1 ++ name :: N2) ps
      = applyChecks N2 (applyCheck (applyChecks N1 ps) name) := by
    simp [applyChecks, List.foldl_append]
  rw [hsplit]
  have hdisj := List.nodup_append.mp hnd
  have hn1 : name ∉ N1 := fun hmem1 =>
    (hdisj.2.2 hmem1) (List.mem_cons_self name N2)
  have hn2 : name ∉ N2 := (List.nodup_cons.mp hdisj.2.1).1
  have hl1 : lookupDict (applyChecks N1 ps) name = some (SyncVal.str v) :=
    (lookupDict_applyChecks_notMem N1 ps name hn1).trans hl
  exact (lookupDict_applyChecks_notMem N2 _ name hn2).trans
    (lookupDict_applyCheck_success _ _ _ hl1 hm)

theorem lookupDict_buildDict {α : Type} (ps : List (String × α)) (k : String) :
    lookupDict (buildDict ps) k
      = (ps.reverse.find? (fun p => p.1 == k)).map (fun p => p.2) := by
  induction ps using List.reverseRecOn with
  | nil => rfl
  | append_singleton ps p ih =>
    have hb : buildDict (ps ++ [p]) = dictInsert (buildDict ps) p.1 p.2 := by
      simp [buildDict, List.foldl_append]
    rw [hb, lookupDict_dictInsert, List.reverse_append]
    by_cases h : k = p.1
    · simp [List.find?, h]
    · simp [List.find?, beq_eq_false_iff_ne.mpr (fun he => h he.symm), h, ih]

theorem ksmLoop_fls (otp : String) (http : String → String → String)
    (urls : List String)
    (h : ∀ u ∈ urls, startsWithOK (http u otp) = false) :
    ksmLoop otp http urls = DecryptOtpResult.fls := by
  induction urls with
  | nil => rfl
  | cons u rest ih =>
    simp only [ksmLoop, h u (List.mem_cons_self u rest), Bool.false_eq_true,
      if_false]
    exact ih (fun x hx => h x (List.mem_cons_of_mem u hx))

/-! ## Claim theorems -/

/-- C1: for every 16-byte block, calculate_crc agrees with the specification's
computeResidue algorithm (crc = 0xFFFF, per byte xor then eight conditional
shift-xor steps with 0x8408); the block with hex representation
16e1e5d9d3991004452007e302000000 has residue 22744; and check_crc is true
exactly when the residue is 0xf0b8. -/
theorem crc_meets_spec :
    (∀ b0 b1 b2 b3 b4 b5 b6 b7 b8 b9 b10 b11 b12 b13 b14 b15 : Nat,
      crc16Bytes [b0, b1, b2, b3, b4, b5, b6, b7, b8, b9, b10, b11, b12, b13, b14, b15]
        = computeResidue [b0, b1, b2, b3, b4, b5, b6, b7, b8, b9, b10, b11, b12, b13, b14, b15]) ∧
    calculate_crc "16e1e5d9d3991004452007e302000000" = some 22744 ∧
    (∀ (token : String) (bs : List Nat), unhexlify token = some bs →
      (check_crc token = some true ↔ crc16Bytes bs = 0xf0b8)) := by
  refine ⟨fun b0 b1 b2 b3 b4 b5 b6 b7 b8 b9 b10 b11 b12 b13 b14 b15 => rfl,
    by decide, ?_⟩
  intro token bs h
  simp [check_crc, calculate_crc, h]

/-- Witness for crc_meets_spec at the reference block. -/
theorem crc_meets_spec_witness :
    unhexlify "16e1e5d9d3991004452007e302000000"
        = some [0x16, 0xe1, 0xe5, 0xd9, 0xd3, 0x99, 0x10, 0x04,
                0x45, 0x20, 0x07, 0xe3, 0x02, 0x00, 0x00, 0x00] ∧
    (check_crc "16e1e5d9d3991004452007e302000000" = some true ↔
      crc16Bytes [0x16, 0xe1, 0xe5, 0xd9, 0xd3, 0x99, 0x10, 0x04,
                  0x45, 0x20, 0x07, 0xe3, 0x02, 0x00, 0x00, 0x00] = 0xf0b8) :=
  ⟨by decide, crc_meets_spec.2.2 _ _ (by decide)⟩

/-- C2: counters_gt holds exactly when the first counter is larger, or the
counters are equal and the first use value is larger; with the three
concrete scenarios of the specification. -/
theorem counters_gt_meets_spec :
    (∀ a b : CounterParams, counters_gt a b = true ↔
      (a.yk_counter > b.yk_counter ∨
        (a.yk_counter = b.yk_counter ∧ a.yk_use > b.yk_use))) ∧
    counters_gt ⟨123, 200⟩ ⟨123, 200⟩ = false ∧
    counters_gt ⟨123, 200⟩ ⟨80, 200⟩ = true ∧
    counters_gt ⟨123, 200⟩ ⟨80, 201⟩ = true := by
  refine ⟨fun a b => ?_, by decide, by decide, by decide⟩
  simp [counters_gt]

/-- C3: for any two counter pairs exactly one of counters_gt in either order
and counters_eq holds, and counters_gte agrees with the disjunction of
counters_gt and counters_eq. -/
theorem counters_trichotomy_meets_spec :
    ∀ a b : CounterParams,
      (counters_gt a b).toNat + (counters_gt b a).toNat + (counters_eq a b).toNat = 1 ∧
      counters_gte a b = (counters_gt a b || counters_eq a b) := by
  intro a b
  obtain ⟨ac, au⟩ := a
  obtain ⟨bc, bu⟩ := b
  simp only [counters_gt, counters_eq, counters_gte]
  rcases lt_trichotomy ac bc with h | h | h
  · simp [h, lt_asymm h, beq_eq_false_iff_ne.mpr (ne_of_lt h),
      beq_eq_false_iff_ne.mpr (ne_of_gt h)]
  · subst h
    rcases lt_trichotomy au bu with hu | hu | hu
    · simp [hu, lt_asymm hu, not_le.mpr hu, beq_eq_false_iff_ne.mpr (ne_of_lt hu),
        beq_eq_false_iff_ne.mpr (ne_of_gt hu)]
    · subst hu
      simp [le_refl]
    · simp [hu, lt_asymm hu, le_of_lt hu, beq_eq_false_iff_ne.mpr (ne_of_lt hu),
        beq_eq_false_iff_ne.mpr (ne_of_gt hu)]
  · simp [h, lt_asymm h, beq_eq_false_iff_ne.mpr (ne_of_lt h),
      beq_eq_false_iff_ne.mpr (ne_of_gt h)]

theorem translateChar_not_mem (c : Char) (h : c ∉ modhexAlphabet) : translateChar c = c := by
  have hd : modhexAlphabet
      = ['c', 'b', 'd', 'e', 'f', 'g', 'h', 'i', 'j', 'k', 'l', 'n', 'r', 't', 'u', 'v'] := rfl
  rw [hd] at h
  simp only [List.mem_cons, List.not_mem_nil, or_false, not_or] at h
  obtain ⟨h1, h2, h3, h4, h5, h6, h7, h8, h9, h10, h11, h12, h13, h14, h15, h16⟩ := h
  simp [translateChar, MODHEX_MAP, List.lookup,
    beq_eq_false_iff_ne.mpr h1, beq_eq_false_iff_ne.mpr h2, beq_eq_false_iff_ne.mpr h3,
    beq_eq_false_iff_ne.mpr h4, beq_eq_false_iff_ne.mpr h5, beq_eq_false_iff_ne.mpr h6,
    beq_eq_false_iff_ne.mpr h7, beq_eq_false_iff_ne.mpr h8, beq_eq_false_iff_ne.mpr h9,
    beq_eq_false_iff_ne.mpr h10, beq_eq_false_iff_ne.mpr h11, beq_eq_false_iff_ne.mpr h12,
    beq_eq_false_iff_ne.mpr h13, beq_eq_false_iff_ne.mpr h14, beq_eq_false_iff_ne.mpr h15,
    beq_eq_false_iff_ne.mpr h16]

/-- C4 counterexample: the module's own doctest input contains 'a', which is
outside the modhex alphabet, yet modhex2hex returns the translated string (the
doctest output) instead of failing: str.translate leaves unmapped characters
unchanged and raises no error. -/
theorem modhex2hex_invalid_counterexample :
    ('a' ∈ "aabbccddeeffnrfrjeelfvehntlnlvgejvcrtdvivfbh".data ∧
      'a' ∉ modhexAlphabet) ∧
    modhex2hex "aabbccddeeffnrfrjeelfvehntlnlvgejvcrtdvivfbh"
      = "aa1100223344bc4c833a4f36bdabaf538f0cd2f7f416" := by decide

/-- C4 amended: for every input string containing a character outside the
modhex alphabet, modhex2hex does not fail: it returns the character-for-
character translation in which every character outside the alphabet is left
unchanged. -/
theorem modhex2hex_invalid_passthrough :
    ∀ s : String, (∃ c ∈ s.data, c ∉ modhexAlphabet) →
      ((modhex2hex s).data = s.data.map translateChar ∧
        (∀ c ∈ s.data, c ∉ modhexAlphabet → translateChar c = c)) := by
  intro s _
  exact ⟨rfl, fun c _ hc => translateChar_not_mem c hc⟩

/-- Witness for modhex2hex_invalid_passthrough at the one-character string a. -/
theorem modhex2hex_invalid_passthrough_witness :
    (∃ c ∈ "a".data, c ∉ modhexAlphabet) ∧
    ((modhex2hex "a").data = "a".data.map translateChar ∧
      (∀ c ∈ "a".data, c ∉ modhexAlphabet → translateChar c = c)) :=
  ⟨by decide, modhex2hex_invalid_passthrough "a" (by decide)⟩

/-- C9: the fixed table maps the sixteen modhex symbols, in table order, onto
the sixteen lowercase hex digits in natural order, and on alphabet-only input
modhex2hex substitutes character for character, preserving the length. -/
theorem modhex2hex_valid_meets_spec :
    (∀ i < 16, translateChar (modhexAlphabet.getD i ' ')
        = "0123456789abcdef".data.getD i ' ') ∧
    (∀ s : String, (∀ c ∈ s.data, c ∈ modhexAlphabet) →
      ((modhex2hex s).data = s.data.map translateChar ∧
        (modhex2hex s).length = s.length)) := by
  refine ⟨by decide, fun s _ => ⟨rfl, ?_⟩⟩
  show (s.data.map translateChar).length = s.data.length
  simp

/-- Witness for modhex2hex_valid_meets_spec at index 0 and the string cb. -/
theorem modhex2hex_valid_meets_spec_witness :
    ((0 : Nat) < 16 ∧ translateChar (modhexAlphabet.getD 0 ' ')
        = "0123456789abcdef".data.getD 0 ' ') ∧
    ((∀ c ∈ "cb".data, c ∈ modhexAlphabet) ∧
      ((modhex2hex "cb").data = "cb".data.map translateChar ∧
        (modhex2hex "cb").length = "cb".length)) :=
  ⟨⟨by decide, modhex2hex_valid_meets_spec.1 0 (by decide)⟩,
   ⟨by decide, modhex2hex_valid_meets_spec.2 "cb" (by decide)⟩⟩

example : hexlify (sha1 (strBytes "abc")) = "a9993e364706816aba3e25717850c26c9cd0d89d" := by decide

example : hexlify (hmac_sha1 (strBytes "key")
    (strBytes "The quick brown fox jumps over the lazy dog"))
    = "de7c9b85b8b78aa6bc8a7a36f70a90701c9db4d9" := by decide

example : b64encode (strBytes "Ma") = "TWE=" := by decide

example : sign [("b", "2"), ("a", "1")] (strBytes "key")
    = "hGVlXw8WSjak+4rQ6DxsD+M2wLA=" := by decide

example : aesDecryptBlock
    [0x00, 0x01, 0x02, 0x03, 0x04, 0x05, 0x06, 0x07,
     0x08, 0x09, 0x0a, 0x0b, 0x0c, 0x0d, 0x0e, 0x0f]
    [0x69, 0xc4, 0xe0, 0xd8, 0x6a, 0x7b, 0x04, 0x30,
     0xd8, 0xcd, 0xb7, 0x80, 0x70, 0xb4, 0xc5, 0x5a] =
    [0x00, 0x11, 0x22, 0x33, 0x44, 0x55, 0x66, 0x77,
     0x88, 0x99, 0xaa, 0xbb, 0xcc, 0xdd, 0xee, 0xff] := by decide

/-- C5 counterexample: the reference ciphertext input contains modhex letters,
so the modhex translation stage does not leave it unchanged, and AES-ECB
decryption of the raw, untranslated 16-byte block under the reference key
yields a plaintext different from the reference output: the input is not
treated as already-decoded raw-stage input. -/
theorem aes128ecb_decrypt_counterexample :
    modhex2hex "16e1e5d9d3991004452007e302000000"
      ≠ "16e1e5d9d3991004452007e302000000" ∧
    ((unhexlify "abcdef0123456789abcdef0123456789").bind (fun kb =>
      (unhexlify "16e1e5d9d3991004452007e302000000").map (fun cb =>
        hexlify (ecbDecrypt kb cb))))
      = some "e32b2192332c8c0df1fd7405dc9a83a8" ∧
    ("e32b2192332c8c0df1fd7405dc9a83a8" : String)
      ≠ "46b029d5340bbd23b39c6c9154d095b1" :=
  ⟨by decide, by decide, by decide⟩

/-- C5 amended: aes128ecb_decrypt refines the specification pipeline (modhex
translation, hex decode, AES-128-ECB decryption, lowercase hex output), and
the reference vector holds for the full function: the translation stage maps
the input to 16313529239910044520073302000000 and decrypting that block under
the reference key gives 46b029d5340bbd23b39c6c9154d095b1. -/
theorem aes128ecb_decrypt_amended :
    (∀ key cipher : String,
      aes128ecb_decrypt key cipher = cipherDecryptorSpec key cipher) ∧
    modhex2hex "16e1e5d9d3991004452007e302000000"
      = "16313529239910044520073302000000" ∧
    aes128ecb_decrypt "abcdef0123456789abcdef0123456789"
        "16e1e5d9d3991004452007e302000000"
      = some "46b029d5340bbd23b39c6c9154d095b1" :=
  ⟨fun _ _ => rfl, by decide, by decide⟩

/-- C6: sign is exactly base64 of the HMAC-SHA-1, keyed by the raw API key
bytes, of the canonical string described by the specification (field names
sorted ascending byte-wise, key=value pairs joined with ampersands); it is
deterministic; and with the key set fixed, changing the value of a single
field changes the canonical string. -/
theorem sign_meets_spec :
    (∀ (data : List (String × String)) (apikey : List Nat),
      sign data apikey
        = b64encode (hmac_sha1 apikey (strBytes (canonicalizeSpec data)))) ∧
    (∀ (d1 d2 : List (String × String)) (k1 k2 : List Nat),
      d1 = d2 → k1 = k2 → sign d1 k1 = sign d2 k2) ∧
    (∀ (data1 data2 : List (String × String)) (key : String),
      data1.map (fun p => p.1) = data2.map (fun p => p.1) →
      (data1.map (fun p => p.1)).Nodup →
      key ∈ data1.map (fun p => p.1) →
      (∀ k : String, k ≠ key → lookupDict data1 k = lookupDict data2 k) →
      lookupDict data1 key ≠ lookupDict data2 key →
      signQueryString data1 ≠ signQueryString data2) := by
  refine ⟨fun _ _ => rfl, fun d1 d2 k1 k2 h1 h2 => by rw [h1, h2], ?_⟩
  intro data1 data2 key hkeys hnd hmem hother hkey
  have hmem2 : key ∈ data2.map (fun p => p.1) := hkeys ▸ hmem
  obtain ⟨v1, hv1⟩ := lookupDict_isSome_of_mem_keys data1 key hmem
  obtain ⟨v2, hv2⟩ := lookupDict_isSome_of_mem_keys data2 key hmem2
  have hvne : v1 ≠ v2 := by
    intro he
    apply hkey
    rw [hv1, hv2, he]
  have hSperm := sortedStrings_perm (data1.map (fun p => p.1))
  have hSnd : (sortedStrings (data1.map (fun p => p.1))).Nodup :=
    hSperm.nodup_iff.mpr hnd
  have hSmem : key ∈ sortedStrings (data1.map (fun p => p.1)) :=
    hSperm.mem_iff.mpr hmem
  obtain ⟨P, Q, hPQ⟩ := List.append_of_mem hSmem
  have hnd' := List.nodup_append.mp (hPQ ▸ hSnd)
  have hkeyP : key ∉ P := fun hp => hnd'.2.2 hp (List.mem_cons_self key Q)
  have hkeyQ : key ∉ Q := (List.nodup_cons.mp hnd'.2.1).1
  have hmapP : P.map (fun k => k ++ "=" ++ (lookupDict data2 k).getD "")
      = P.map (fun k => k ++ "=" ++ (lookupDict data1 k).getD "") :=
    List.map_congr_left (fun a ha => by
      rw [hother a (fun he => hkeyP (he ▸ ha))])
  have hmapQ : Q.map (fun k => k ++ "=" ++ (lookupDict data2 k).getD "")
      = Q.map (fun k => k ++ "=" ++ (lookupDict data1 k).getD "") :=
    List.map_congr_left (fun a ha => by
      rw [hother a (fun he => hkeyQ (he ▸ ha))])
  have e1 : signQueryString data1
      = joinAmp ((P.map (fun k => k ++ "=" ++ (lookupDict data1 k).getD ""))
          ++ (key ++ "=" ++ v1)
            :: Q.map (fun k => k ++ "=" ++ (lookupDict data1 k).getD "")) := by
    show joinAmp ((sortedStrings (data1.map (fun p => p.1))).map
      (fun k => k ++ "=" ++ (lookupDict data1 k).getD "")) = _
    rw [hPQ]
    simp only [List.map_append, List.map_cons]
    rw [hv1]
    rfl
  have e2 : signQueryString data2
      = joinAmp ((P.map (fun k => k ++ "=" ++ (lookupDict data1 k).getD ""))
          ++ (key ++ "=" ++ v2)
            :: Q.map (fun k => k ++ "=" ++ (lookupDict data1 k).getD "")) := by
    show joinAmp ((sortedStrings (data2.map (fun p => p.1))).map
      (fun k => k ++ "=" ++ (lookupDict data2 k).getD "")) = _
    rw [← hkeys, hPQ]
    simp only [List.map_append, List.map_cons]
    rw [hv2, hmapP, hmapQ]
    rfl
  intro hcontra
  exact joinAmp_single_value_ne _ key v1 v2 _ hvne ((e1.symm.trans hcontra).trans e2)

/-- Witness for sign_meets_spec on two singleton field mappings differing only
in the value at key b. -/
theorem sign_meets_spec_witness :
    ([(("b" : String), ("2" : String))].map (fun p => p.1)
        = [(("b" : String), ("3" : String))].map (fun p => p.1)) ∧
    lookupDict [(("b" : String), ("2" : String))] "b"
      ≠ lookupDict [(("b" : String), ("3" : String))] "b" ∧
    signQueryString [("b", "2")] ≠ signQueryString [("b", "3")] :=
  ⟨rfl, by decide,
    sign_meets_spec.2.2 [("b", "2")] [("b", "3")] "b" rfl (by decide) (by decide)
      (fun k hk => by simp [lookupDict, beq_eq_false_iff_ne.mpr (Ne.symm hk)])
      (by decide)⟩

/-- C7 counterexample: in the response with lines yk_counter=abc and yk_use=1
the recognized field yk_counter fails its pattern, yet it is present in the
result with its raw string value (the source only logs the failure and never
deletes the entry), while the well-formed yk_use is retained coerced. -/
theorem parse_sync_counterexample :
    "yk_counter" ∈ checkNames ∧
    checkMatch "yk_counter" "abc" = false ∧
    lookupDict (parse_sync_response "yk_counter=abc\r\nyk_use=1") "yk_counter"
      = some (SyncVal.str "abc") ∧
    lookupDict (parse_sync_response "yk_counter=abc\r\nyk_use=1") "yk_use"
      = some (SyncVal.num 1) := by decide

/-- C7 amended: for every sync-response body and recognized field, a raw value
failing its pattern is retained in the result unchanged as a string (only
logged, not dropped), while a raw value matching its pattern is retained with
the numeric coercion applied. -/
theorem parse_sync_amended :
    ∀ (body name v : String), name ∈ checkNames →
      lookupDict (rawSyncDict body) name = some (SyncVal.str v) →
      ((checkMatch name v = false →
        lookupDict (parse_sync_response body) name = some (SyncVal.str v)) ∧
       (checkMatch name v = true →
        lookupDict (parse_sync_response body) name = some (coerceValue v))) := by
  intro body name v hmem hl
  constructor
  · intro hm
    exact lookupDict_applyChecks_fail checkNames (rawSyncDict body) name v hl hm
  · intro hm
    exact lookupDict_applyChecks_success checkNames (rawSyncDict body) name v
      (by decide) hmem hl hm

/-- Witness for parse_sync_amended at the yk_counter=abc response. -/
theorem parse_sync_amended_witness :
    checkMatch "yk_counter" "abc" = false ∧
    lookupDict (parse_sync_response "yk_counter=abc\r\nyk_use=1") "yk_counter"
      = some (SyncVal.str "abc") :=
  ⟨by decide,
    (parse_sync_amended "yk_counter=abc\r\nyk_use=1" "yk_counter" "abc"
      (by decide) (by decide)).1 (by decide)⟩

/-- C10 counterexample: in the body with two lines a=1 and a=2 the key a is
unrecognized and both lines contain '=', but the line a=1 does not appear in
the result: dict construction keeps only the last value for a repeated key. -/
theorem unrecognized_counterexample :
    ¬ (∀ p ∈ syncPairs "a=1\r\na=2", p.1 ∉ checkNames →
        lookupDict (parse_sync_response "a=1\r\na=2") p.1
          = some (SyncVal.str p.2)) := by decide

/-- C10 amended: for every sync-response body, an unrecognized key occurring
in some line containing '=' appears in the result bound to the raw string
value of the last such line, never validated, coerced or removed by the
checks loop. -/
theorem unrecognized_amended :
    ∀ (body k : String), k ∉ checkNames →
      lookupDict (parse_sync_response body) k
        = ((syncPairs body).reverse.find? (fun p => p.1 == k)).map
            (fun p => SyncVal.str p.2) := by
  intro body k hk
  have h1 : lookupDict (parse_sync_response body) k
      = lookupDict (rawSyncDict body) k :=
    lookupDict_applyChecks_notMem checkNames (rawSyncDict body) k hk
  rw [h1]
  show lookupDict
    (buildDict ((syncPairs body).map (fun p => (p.1, SyncVal.str p.2)))) k = _
  rw [lookupDict_buildDict, ← List.map_reverse, List.find?_map,
    Option.map_map]
  rfl

/-- Witness for unrecognized_amended at the duplicate-key body. -/
theorem unrecognized_amended_witness :
    ("a" ∉ checkNames) ∧
    lookupDict (parse_sync_response "a=1\r\na=2") "a"
      = ((syncPairs "a=1\r\na=2").reverse.find? (fun p => p.1 == "a")).map
          (fun p => SyncVal.str p.2) :=
  ⟨by decide, unrecognized_amended "a=1\r\na=2" "a" (by decide)⟩

/-- C8 counterexample: with no decryptor, the not-configured call (no urls)
and the exhausted call (one url whose response does not start with OK) both
return the Python constant False, so the two failure results are equal and not
distinguishable by the caller. -/
theorem decrypt_otp_counterexample :
    decrypt_otp "x" [] none constERRResponse = DecryptOtpResult.fls ∧
    startsWithOK (constERRResponse "u" "x") = false ∧
    decrypt_otp "x" ["u"] none constERRResponse = DecryptOtpResult.fls ∧
    decrypt_otp "x" [] none constERRResponse
      = decrypt_otp "x" ["u"] none constERRResponse := by decide

/-- C8 amended: decrypt_otp with no decryptor and no urls returns False, and
with no decryptor and every endpoint answering a body not starting with OK it
also returns False: the same value in both failure modes, distinguishable only
through logging, not through the returned result. -/
theorem decrypt_otp_amended :
    (∀ (otp : String) (http : String → String → String),
      decrypt_otp otp [] none http = DecryptOtpResult.fls) ∧
    (∀ (otp : String) (urls : List String) (http : String → String → String),
      (∀ u ∈ urls, startsWithOK (http u otp) = false) →
      decrypt_otp otp urls none http = DecryptOtpResult.fls) := by
  constructor
  · intro otp http
    rfl
  · intro otp urls http h
    cases urls with
    | nil => rfl
    | cons u rest =>
      show ksmLoop otp http (u :: rest) = DecryptOtpResult.fls
      exact ksmLoop_fls otp http (u :: rest) h

/-- Witness for decrypt_otp_amended at a one-endpoint network answering ERR. -/
theorem decrypt_otp_amended_witness :
    (∀ u ∈ (["u"] : List String), startsWithOK (constERRResponse u "x") = false) ∧
    decrypt_otp "x" ["u"] none constERRResponse = DecryptOtpResult.fls :=
  ⟨by decide, decrypt_otp_amended.2 "x" ["u"] constERRResponse (by decide)⟩

end Yubistack
